import Mathlib

/-!
Shallow embedding of the Chicago Crime Observatory dashboard (`app.py`):
the resident-category Categorizer, the Incident Loader's row pipeline,
the Filter Engine mask, the three aggregators and the bar/map chart
transform pipeline, together with theorems checking the specification's
claims against these definitions.

Conventions of the embedding:
* a Python value that may or may not be a string is `PyVal`;
* timestamps are minutes since the epoch (`Nat`); the external
  `pd.to_datetime(..., errors="coerce")` parser is abstracted as the
  `Option Nat` field already carried by a raw record (`none` = missing
  or unparseable, i.e. `NaT`);
* `pd.to_numeric(..., errors="coerce")` on the decimal strings this
  data source uses is modelled by `parseNumStr` (unsigned decimal
  literals with an optional fractional part; anything else coerces to
  `none`);
* the dataframe is a `List Incident`; pandas dataframe operations
  (filter masks, groupby/size with sorted keys and dropped null keys,
  rolling windows) are spelled out as list functions.
-/

/-- A Python value as seen by `categorize_for_resident`: either a
string or some non-string value (`NaN`, numbers, `None`, ...). -/
inductive PyVal where
  | str (s : String)
  | nonString
deriving DecidableEq

/-- Python `str.upper()` restricted to the ASCII range used by the
keyword lists. -/
def pyUpper (s : String) : String :=
  String.mk (s.toList.map Char.toUpper)

/-- Is `needle` a leading segment of `hay`? (Helper for substring
containment, mirroring Python's `k in c`.) -/
def leadEq : List Char → List Char → Bool
  | [], _ => true
  | _ :: _, [] => false
  | a :: as, b :: bs => a == b && leadEq as bs

/-- Does the second list contain `needle` as a contiguous segment? -/
def subMatch (needle : List Char) : List Char → Bool
  | [] => leadEq needle []
  | c :: bs => leadEq needle (c :: bs) || subMatch needle bs

/-- Python's substring test `needle in hay`. -/
def strContainsSub (hay needle : String) : Bool :=
  subMatch needle.toList hay.toList

/-- The property-crime keyword list of `categorize_for_resident`. -/
def property_keywords : List String :=
  ["THEFT", "BURGLARY", "ROBBERY", "MOTOR VEHICLE THEFT",
   "CRIMINAL DAMAGE", "DECEPTIVE PRACTICE", "ARSON"]

/-- The violent-crime keyword list of `categorize_for_resident`. -/
def violent_keywords : List String :=
  ["BATTERY", "ASSAULT", "HOMICIDE", "KIDNAPPING",
   "CRIM SEXUAL ASSAULT", "SEX OFFENSE"]

/-- The public-safety keyword list of `categorize_for_resident`. -/
def public_safety_keywords : List String :=
  ["PUBLIC PEACE VIOLATION", "INTERFERENCE WITH PUBLIC OFFICER",
   "WEAPONS VIOLATION", "HUMAN TRAFFICKING", "PROSTITUTION",
   "GAMBLING", "NARCOTICS", "OTHER NARCOTIC VIOLATION",
   "LIQUOR LAW VIOLATION", "OBSCENITY"]

/-- Function `categorize_for_resident` from `app.py`: non-string input maps to
"Other / Uncategorized"; otherwise the upper-cased text is matched
against the three keyword lists in order, first match wins. -/
def categorize_for_resident (crime_type : PyVal) : String :=
  match crime_type with
  | .nonString => "Other / Uncategorized"
  | .str s =>
    let c := pyUpper s
    if property_keywords.any (fun k => strContainsSub c k) then "Property Crime"
    else if violent_keywords.any (fun k => strContainsSub c k) then "Violent Crime"
    else if public_safety_keywords.any (fun k => strContainsSub c k) then
      "Public Safety / Nuisance"
    else "Other / Uncategorized"

/-- The four resident-facing buckets. -/
def resident_buckets : List String :=
  ["Property Crime", "Violent Crime", "Public Safety / Nuisance",
   "Other / Uncategorized"]

/-- Value of a decimal digit character, `none` otherwise. -/
def digitVal (c : Char) : Option Nat :=
  if c.isDigit then some (c.toNat - 48) else none

/-- Value of a non-empty all-digit character run, `none` otherwise. -/
def digitsVal (cs : List Char) : Option Nat :=
  if cs.isEmpty then none
  else cs.foldlM (fun acc c => (digitVal c).map (fun d => acc * 10 + d)) 0

/-- Numeric coercion standing in for `pd.to_numeric(..., errors="coerce")`
on this data source's values: an unsigned decimal literal with an
optional fractional part parses to a rational, anything else coerces
to `none` (NaN). -/
def parseNumStr (s : String) : Option ℚ :=
  match s.toList.splitOn '.' with
  | [ip] => (digitsVal ip).map (fun n => mkRat n 1)
  | [ip, fp] =>
    match digitsVal ip, digitsVal fp with
    | some n, some f => some (mkRat (n * 10 ^ fp.length + f) (10 ^ fp.length))
    | _, _ => none
  | _ => none

/-- The `astype("Int64")` nullable-integer cast: NaN stays null and an
integral value is cast exactly. (A non-integral value is outside this
model; the real cast refuses it.) -/
def toInt64 (q : Option ℚ) : Option ℤ :=
  q.bind (fun x => if x.den = 1 then some x.num else none)

/-- One raw record of the Socrata JSON payload after
`pd.json_normalize`, with the timestamp already passed through the
external `to_datetime` coercion (`none` = missing or unparseable). -/
structure RawRecord where
  date : Option Nat
  primary_type : PyVal
  domestic : Option Bool
  community_area : Option String
  latitude : Option String
  longitude : Option String
deriving DecidableEq

/-- Weekday name as `pd.Timestamp.day_name()` yields it, for a weekday index with Monday = 0. -/
def day_name (i : Nat) : String :=
  match i with
  | 0 => "Monday"
  | 1 => "Tuesday"
  | 2 => "Wednesday"
  | 3 => "Thursday"
  | 4 => "Friday"
  | 5 => "Saturday"
  | _ => "Sunday"

/-- One processed dataframe row of `load_data`. -/
structure Incident where
  occurred_at : Option Nat
  date_only : Nat
  hour : Nat
  weekday : String
  primary_description : PyVal
  is_domestic : Option Bool
  latitude : Option ℚ
  longitude : Option ℚ
  community_area : Option ℤ
  resident_category : String
deriving DecidableEq

/-- The per-row part of `load_data`: a row whose timestamp coerced to
NaT is dropped (`dropna(subset=["date"])`); a kept row gets the derived
date/hour/weekday columns, numeric coercions and the resident
category. Day 0 of the epoch is a Thursday, hence the `+ 3` weekday
offset with Monday = 0. -/
def processRow (r : RawRecord) : Option Incident :=
  match r.date with
  | none => none
  | some t =>
    some
      { occurred_at := some t
        date_only := t / 1440
        hour := t % 1440 / 60
        weekday := day_name ((t / 1440 + 3) % 7)
        primary_description := r.primary_type
        is_domestic := r.domestic
        latitude := r.latitude.bind parseNumStr
        longitude := r.longitude.bind parseNumStr
        community_area := toInt64 (r.community_area.bind parseNumStr)
        resident_category := categorize_for_resident r.primary_type }

/-- What `load_data` hands back: the working set plus the error text
shown through `st.error` on the failure path (`none` = no error). -/
structure LoadResult where
  rows : List Incident
  errorReported : Option String
deriving DecidableEq

/-- Function `load_data` from `app.py`. The whole fetch/decode is wrapped in
one `try`/`except`: the argument is the outcome of the fetch-and-decode
step (`Except.error` covers HTTP errors, timeouts, malformed JSON and
a missing expected column, all of which raise inside the `try`); on
failure the function reports the error and returns an empty frame, on
success it runs the row pipeline. -/
def load_data (fetch : Except String (List RawRecord)) : LoadResult :=
  match fetch with
  | .error e => { rows := [], errorReported := some ("Failed to load data: " ++ e) }
  | .ok raw => { rows := raw.filterMap processRow, errorReported := none }

/-- The three options of the sidebar domestic-incidents selectbox. -/
inductive DomesticMode where
  | all
  | domesticOnly
  | nonDomesticOnly
deriving DecidableEq

/-- The inclusive date-range part of the filter mask
(`(df["date_only"] >= start_date) & (df["date_only"] <= end_date)`). -/
def dateMask (start_date end_date : Nat) (inc : Incident) : Bool :=
  decide (start_date ≤ inc.date_only) && decide (inc.date_only ≤ end_date)

/-- The domestic part of the filter mask: nothing for "All incidents",
otherwise `df["domestic"] == True` (resp. `== False`); a pandas
comparison with a null value is `False`, so a null `domestic` never
matches either mode. -/
def domesticMask (mode : DomesticMode) (inc : Incident) : Bool :=
  match mode with
  | .all => true
  | .domesticOnly => inc.is_domestic == some true
  | .nonDomesticOnly => inc.is_domestic == some false

/-- The crime-type part of the filter mask: the `isin` clause is added
only when the multiselect is non-empty (`if selected_cats:`); `isin`
against a list of strings is `False` on a null value. -/
def typeMask (selected : List String) (inc : Incident) : Bool :=
  if selected.isEmpty then true
  else
    match inc.primary_description with
    | .str t => selected.contains t
    | .nonString => false

/-- The combined filter mask of `app.py` (all clauses ANDed). -/
def mask (start_date end_date : Nat) (mode : DomesticMode) (selected : List String)
    (inc : Incident) : Bool :=
  dateMask start_date end_date inc && domesticMask mode inc && typeMask selected inc

/-- The Filter Engine: `filtered_df = df.loc[mask]`. -/
def filterEngine (rows : List Incident) (start_date end_date : Nat)
    (mode : DomesticMode) (selected : List String) : List Incident :=
  rows.filter (mask start_date end_date mode selected)

/-- Insert into a `le`-sorted list (helper of `sortB`). -/
def insB {α : Type} (le : α → α → Bool) (a : α) : List α → List α
  | [] => [a]
  | b :: bs => if le a b then a :: b :: bs else b :: insB le a bs

/-- Insertion sort by a boolean `le`, standing in for pandas' sort of
group keys. -/
def sortB {α : Type} (le : α → α → Bool) : List α → List α
  | [] => []
  | a :: as => insB le a (sortB le as)

/-- Grouping as `groupby(key).size()` with pandas' default sorted group keys:
the distinct keys in ascending `le`-order, each with its number of
occurrences. -/
def groupCounts {α : Type} [DecidableEq α] (le : α → α → Bool) (ks : List α) :
    List (α × Nat) :=
  (sortB le ks.dedup).map (fun k => (k, ks.count k))

/-- The `daily` aggregate: group the filtered rows by `date_only`,
count per date, ascending by date. -/
def daily (rows : List Incident) : List (Nat × Nat) :=
  groupCounts (fun a b => Nat.ble a b) (rows.map (fun inc => inc.date_only))

/-- The `incidents` column of the `daily` aggregate. -/
def dailyCounts (rows : List Incident) : List Nat :=
  (daily rows).map (fun p => p.2)

/-- Rolling mean `rolling(window=7, min_periods=1).mean()`: a trailing rolling mean
whose window at row `i` is the last `min (i+1) 7` counts; the mean of
the window is its sum divided by its length, as an exact rational. -/
def rollingMean7 (counts : List Nat) : List ℚ :=
  (List.range counts.length).map (fun i =>
    let w := (counts.take (i + 1)).drop (i + 1 - 7)
    mkRat w.sum w.length)

/-- The (`primary_description`, `community_area`) group key of a row,
or `none` when either is null — pandas `groupby` drops such rows. -/
def incKey (inc : Incident) : Option (String × ℤ) :=
  match inc.primary_description, inc.community_area with
  | .str t, some ca => some (t, ca)
  | _, _ => none

/-- The non-null group keys of the filtered rows, one per row. -/
def keyPairs (rows : List Incident) : List (String × ℤ) :=
  rows.filterMap incKey

/-- Strict lexicographic comparison of character lists. -/
def charListLt : List Char → List Char → Bool
  | [], [] => false
  | [], _ :: _ => true
  | _ :: _, [] => false
  | a :: as, b :: bs => decide (a < b) || (a == b && charListLt as bs)

/-- Strict lexicographic comparison of strings. -/
def strLtB (a b : String) : Bool :=
  charListLt a.toList b.toList

/-- Lexicographic order on the (`primary_description`,
`community_area`) group keys, as pandas sorts them. -/
def keyLe (a b : String × ℤ) : Bool :=
  if a.1 = b.1 then decide (a.2 ≤ b.2) else strLtB a.1 b.1

/-- One row of `chart_data`: a group key with its count, the
`community_area` already converted to its string join key
(`astype(str)` on a non-null Int64 prints the bare integer). -/
structure ChartRow where
  primary_description : String
  community_area : String
  count : Nat
deriving DecidableEq

/-- The `chart_data` aggregate: group the filtered rows by
(`primary_description`, `community_area`) — null keys dropped — count
each group, and stringify the area code for the lookup join. -/
def chart_data (rows : List Incident) : List ChartRow :=
  (groupCounts keyLe (keyPairs rows)).map
    (fun g =>
      { primary_description := g.1.1
        community_area := toString g.1.2
        count := g.2 })

/-- The `transform_aggregate` of the bar chart: per crime type, the
sum of the `chart_data` counts (groups in encounter order). -/
def typeTotals (cd : List ChartRow) : List (String × Nat) :=
  (cd.map (fun r => r.primary_description)).dedup.map
    (fun t =>
      (t, ((cd.filter (fun r => decide (r.primary_description = t))).map
        (fun r => r.count)).sum))

/-- The total count of one crime type in `chart_data`. -/
def typeTotal (cd : List ChartRow) (t : String) : Nat :=
  ((cd.filter (fun r => decide (r.primary_description = t))).map
    (fun r => r.count)).sum

/-- The `rank` window operation sorted by `total_count` descending:
Vega's `rank` gives peer rows (equal sort key) the same rank, so the
rank of a total is one more than the number of strictly greater
totals. -/
def rankOf (totals : List (String × Nat)) (x : Nat) : Nat :=
  1 + (totals.filter (fun p => decide (x < p.2))).length

/-- The crime types kept by the bar chart's
`transform_filter(datum.rank <= 20)`. -/
def barTypes (cd : List ChartRow) : List String :=
  ((typeTotals cd).filter
    (fun p => decide (rankOf (typeTotals cd) p.2 ≤ 20))).map (fun p => p.1)

/-- One feature of the neighborhood-boundary GeoJSON, restricted to
the properties the dashboard uses. -/
structure BoundaryFeature where
  area_num_1 : String
  community : String
deriving DecidableEq

/-- The map chart's `transform_lookup` join: find the boundary feature
whose string-typed `properties.area_num_1` equals the row's
`community_area` key. -/
def lookupFeature (features : List BoundaryFeature) (key : String) :
    Option BoundaryFeature :=
  features.find? (fun f => f.area_num_1 == key)

/-- An incident on day `d` (midnight), used to build the daily-trend
example series. -/
def trendInc (d : Nat) : Incident :=
  { occurred_at := some (d * 1440)
    date_only := d
    hour := 0
    weekday := day_name ((d + 3) % 7)
    primary_description := PyVal.str "THEFT"
    is_domestic := some false
    latitude := none
    longitude := none
    community_area := some 1
    resident_category := "Property Crime" }

/-- Seven consecutive days with 4, 10, 4, 10, 4, 10, 4 incidents. -/
def trendRows : List Incident :=
  List.replicate 4 (trendInc 0) ++ List.replicate 10 (trendInc 1) ++
  List.replicate 4 (trendInc 2) ++ List.replicate 10 (trendInc 3) ++
  List.replicate 4 (trendInc 4) ++ List.replicate 10 (trendInc 5) ++
  List.replicate 4 (trendInc 6)

/-- A concrete incident whose domestic status is unknown but which is
inside the date range and carries a selectable crime type. -/
def unknownDomesticInc : Incident :=
  { occurred_at := some 0
    date_only := 0
    hour := 0
    weekday := "Thursday"
    primary_description := PyVal.str "THEFT"
    is_domestic := none
    latitude := none
    longitude := none
    community_area := some 1
    resident_category := "Property Crime" }

/-- A raw record with a parseable timestamp (minute 1000 of day 0). -/
def goodRaw : RawRecord :=
  { date := some 1000
    primary_type := PyVal.str "THEFT"
    domestic := some false
    community_area := some "25"
    latitude := none
    longitude := none }

/-- A raw record whose timestamp failed to parse (NaT). -/
def badRaw : RawRecord :=
  { date := none
    primary_type := PyVal.str "ASSAULT"
    domestic := some true
    community_area := some "7"
    latitude := none
    longitude := none }

/-- The processed row `load_data` derives from `goodRaw`. -/
def timestampInc : Incident :=
  { occurred_at := some 1000
    date_only := 0
    hour := 16
    weekday := "Thursday"
    primary_description := PyVal.str "THEFT"
    is_domestic := some false
    latitude := none
    longitude := none
    community_area := some 25
    resident_category := "Property Crime" }

/-- A raw record whose `community_area` arrives as the string "25". -/
def rawArea25 : RawRecord :=
  { date := some 500
    primary_type := PyVal.str "THEFT"
    domestic := some false
    community_area := some "25"
    latitude := none
    longitude := none }

/-- A raw record whose `community_area` arrives as the float-like
string "25.0". -/
def rawArea25f : RawRecord :=
  { date := some 600
    primary_type := PyVal.str "BATTERY"
    domestic := some true
    community_area := some "25.0"
    latitude := none
    longitude := none }

/-- The boundary feature for community area 25, keyed by the string
"25" in `properties.area_num_1`. -/
def boundary25 : BoundaryFeature :=
  { area_num_1 := "25"
    community := "AUSTIN" }

/-- A `chart_data` row of one count for crime type `t` in area "1",
used to build a 21-way tie. -/
def tieRow (t : String) : ChartRow :=
  { primary_description := t
    community_area := "1"
    count := 1 }

/-- Twenty-one crime types, each with exactly one incident: every
total is 1, so all 21 types tie for the top rank. -/
def tieRows : List ChartRow :=
  [tieRow "T01", tieRow "T02", tieRow "T03", tieRow "T04", tieRow "T05",
   tieRow "T06", tieRow "T07", tieRow "T08", tieRow "T09", tieRow "T10",
   tieRow "T11", tieRow "T12", tieRow "T13", tieRow "T14", tieRow "T15",
   tieRow "T16", tieRow "T17", tieRow "T18", tieRow "T19", tieRow "T20",
   tieRow "T21"]

/-- Descending order on `Nat` (used to sort totals when reasoning
about the rank window). -/
def natGe (a b : Nat) : Bool := decide (b ≤ a)

/-- Two chart rows with distinct per-type totals (2 and 1). -/
def distinctRows : List ChartRow :=
  [{ primary_description := "THEFT", community_area := "1", count := 2 },
   { primary_description := "ARSON", community_area := "1", count := 1 }]

/-- Permuting by `insB` insertion: helper for `sortB_perm`. -/
theorem insB_perm {α : Type} (le : α → α → Bool) (a : α) (l : List α) :
    (insB le a l).Perm (a :: l) := by
  induction l with
  | nil => simp [insB]
  | cons b bs ih =>
    simp only [insB]
    split
    · exact List.Perm.refl _
    · exact ((ih.cons b).trans (List.Perm.swap a b bs))

/-- Sorting with `sortB` permutes its input. -/
theorem sortB_perm {α : Type} (le : α → α → Bool) (l : List α) :
    (sortB le l).Perm l := by
  induction l with
  | nil => simp [sortB]
  | cons a as ih =>
    exact (insB_perm le a (sortB le as)).trans (ih.cons a)

/-- Dropping the elements on which `f` is `none` does not change a
`filterMap`. -/
theorem filterMap_filter_isSome {α β : Type} (f : α → Option β) (l : List α) :
    (l.filter (fun x => (f x).isSome)).filterMap f = l.filterMap f := by
  induction l with
  | nil => rfl
  | cons a as ih =>
    cases h : f a with
    | none => simp [List.filter_cons, List.filterMap_cons, h, ih]
    | some b => simp [List.filter_cons, List.filterMap_cons, h, ih]

/-- Counting after a `filterMap` counts the sources whose image
satisfies the predicate. -/
theorem countP_filterMap {α β : Type} (f : α → Option β) (p : β → Bool) (l : List α) :
    (l.filterMap f).countP p = l.countP (fun x => ((f x).map p).getD false) := by
  induction l with
  | nil => rfl
  | cons a as ih =>
    cases h : f a with
    | none => simp [List.filterMap_cons, List.countP_cons, h, ih]
    | some b => simp [List.filterMap_cons, List.countP_cons, h, ih]

/-- Inserting with `insB` into a sorted list keeps it sorted (for a total, transitive
`le`). -/
theorem insB_pairwise {α : Type} (le : α → α → Bool)
    (htot : ∀ a b, le a b = true ∨ le b a = true)
    (htrans : ∀ a b c, le a b = true → le b c = true → le a c = true)
    (a : α) (l : List α) (hl : l.Pairwise (fun x y => le x y = true)) :
    (insB le a l).Pairwise (fun x y => le x y = true) := by
  induction l with
  | nil => simp [insB]
  | cons b bs ih =>
    rcases List.pairwise_cons.mp hl with ⟨hb, hbs⟩
    simp only [insB]
    split
    case isTrue h =>
      refine List.pairwise_cons.mpr ⟨?_, hl⟩
      intro x hx
      rcases List.mem_cons.mp hx with rfl | hxbs
      · exact h
      · exact htrans a b x h (hb x hxbs)
    case isFalse h =>
      have hba : le b a = true := by
        rcases htot a b with hab | hba
        · exact absurd hab (by simpa using h)
        · exact hba
      refine List.pairwise_cons.mpr ⟨?_, ih hbs⟩
      intro x hx
      have hx2 : x ∈ a :: bs := (insB_perm le a bs).mem_iff.mp hx
      rcases List.mem_cons.mp hx2 with rfl | hxbs
      · exact hba
      · exact hb x hxbs

/-- Sorting with `sortB` sorts (for a total, transitive `le`). -/
theorem sortB_pairwise {α : Type} (le : α → α → Bool)
    (htot : ∀ a b, le a b = true ∨ le b a = true)
    (htrans : ∀ a b c, le a b = true → le b c = true → le a c = true)
    (l : List α) : (sortB le l).Pairwise (fun x y => le x y = true) := by
  induction l with
  | nil => simp [sortB]
  | cons a as ih => exact insB_pairwise le htot htrans a (sortB le as) ih

/-- Core of the rank-window count: in a strictly descending list, the
entries having fewer than `k` strictly greater entries are exactly the
first `min length k`. -/
theorem filter_rank_length :
    ∀ l : List Nat, l.Pairwise (fun a b => a > b) → ∀ k : Nat,
      (l.filter (fun x =>
        decide (l.countP (fun y => decide (x < y)) < k))).length = min l.length k := by
  intro l
  induction l with
  | nil => intro _ k; simp
  | cons a as ih =>
    intro hl k
    rcases List.pairwise_cons.mp hl with ⟨ha, has⟩
    cases k with
    | zero => simp
    | succ k =>
      have hcount_a : (a :: as).countP (fun y => decide (a < y)) = 0 := by
        rw [List.countP_eq_zero]
        intro y hy
        rcases List.mem_cons.mp hy with rfl | hy2
        · simp
        · simp [Nat.lt_asymm (ha y hy2)]
      have hstep : ∀ x ∈ as,
          (a :: as).countP (fun y => decide (x < y)) =
            as.countP (fun y => decide (x < y)) + 1 := by
        intro x hx
        rw [List.countP_cons]
        simp [ha x hx]
      rw [List.filter_cons]
      have hpa : (decide ((a :: as).countP (fun y => decide (a < y)) < k + 1)) = true := by
        rw [hcount_a]; simp
      rw [hpa]
      simp only [if_true]
      have hcongr :
          as.filter (fun x =>
            decide ((a :: as).countP (fun y => decide (x < y)) < k + 1)) =
          as.filter (fun x =>
            decide (as.countP (fun y => decide (x < y)) < k)) := by
        apply List.filter_congr
        intro x hx
        rw [hstep x hx]
        exact decide_eq_decide.mpr (by omega)
      rw [List.length_cons, hcongr, ih has k, List.length_cons, Nat.succ_min_succ]

/-- Rank-window count for an arbitrary list of pairwise-distinct
values, via sorting. -/
theorem filter_rank_length_nodup (l : List Nat) (hn : l.Nodup) (k : Nat) :
    (l.filter (fun x =>
      decide (l.countP (fun y => decide (x < y)) < k))).length = min l.length k := by
  have hperm : (sortB natGe l).Perm l := sortB_perm natGe l
  have hsorted : (sortB natGe l).Pairwise (fun x y => natGe x y = true) :=
    sortB_pairwise natGe
      (fun a b => by unfold natGe; rcases Nat.le_total a b with h | h <;> simp [h])
      (fun a b c h1 h2 => by
        unfold natGe at h1 h2 ⊢
        simp only [decide_eq_true_eq] at h1 h2 ⊢
        omega)
      l
  have hnodup : (sortB natGe l).Nodup := hperm.nodup_iff.mpr hn
  have hgt : (sortB natGe l).Pairwise (fun a b => a > b) := by
    refine (hsorted.and hnodup).imp ?_
    intro a b h
    rcases h with ⟨h1, h2⟩
    unfold natGe at h1
    simp only [decide_eq_true_eq] at h1
    omega
  have hcount : ∀ x : Nat,
      l.countP (fun y => decide (x < y)) =
        (sortB natGe l).countP (fun y => decide (x < y)) :=
    fun x => (hperm.countP_eq _).symm
  calc (l.filter (fun x =>
          decide (l.countP (fun y => decide (x < y)) < k))).length
      = ((sortB natGe l).filter (fun x =>
          decide (l.countP (fun y => decide (x < y)) < k))).length :=
        (hperm.filter _).length_eq.symm
    _ = ((sortB natGe l).filter (fun x =>
          decide ((sortB natGe l).countP (fun y => decide (x < y)) < k))).length := by
        apply congrArg
        apply List.filter_congr
        intro x _
        rw [hcount x]
    _ = min (sortB natGe l).length k := filter_rank_length _ hgt k
    _ = min l.length k := by rw [hperm.length_eq]

/-- The aggregate keys of `typeTotals` are unique: a member pair's
total is `typeTotal` of its type. -/
theorem typeTotals_snd {cd : List ChartRow} {t : String} {n : Nat}
    (h : (t, n) ∈ typeTotals cd) : n = typeTotal cd t := by
  unfold typeTotals at h
  rcases List.mem_map.mp h with ⟨u, _, hu⟩
  cases hu
  rfl

/-- A crime type is shown on the bar chart iff fewer than 20 types
have a strictly greater total. -/
theorem bar_mem_iff (cd : List ChartRow) (t : String) :
    t ∈ barTypes cd ↔
      ∃ n : Nat, (t, n) ∈ typeTotals cd ∧
        ((typeTotals cd).filter (fun p => decide (n < p.2))).length < 20 := by
  unfold barTypes rankOf
  constructor
  · intro h
    rcases List.mem_map.mp h with ⟨p, hp, rfl⟩
    rcases List.mem_filter.mp hp with ⟨hmem, hrank⟩
    refine ⟨p.2, ?_, ?_⟩
    · exact hmem
    · simp only [decide_eq_true_eq] at hrank
      omega
  · rintro ⟨n, hn, hlt⟩
    apply List.mem_map.mpr
    refine ⟨(t, n), List.mem_filter.mpr ⟨hn, ?_⟩, rfl⟩
    simp only [decide_eq_true_eq]
    omega

/-- Every shown type's total is at least every hidden type's total. -/
theorem bar_dominance (cd : List ChartRow) (p q : String × Nat)
    (hp : p ∈ typeTotals cd) (hq : q ∈ typeTotals cd)
    (hpin : p.1 ∈ barTypes cd) (hqout : q.1 ∉ barTypes cd) : q.2 ≤ p.2 := by
  obtain ⟨p1, p2⟩ := p
  obtain ⟨q1, q2⟩ := q
  simp only at hpin hqout ⊢
  have hp2 : p2 = typeTotal cd p1 := typeTotals_snd hp
  have hq2 : q2 = typeTotal cd q1 := typeTotals_snd hq
  rcases (bar_mem_iff cd p1).mp hpin with ⟨n, hnmem, hnlt⟩
  have hn : n = typeTotal cd p1 := typeTotals_snd hnmem
  have hqge : ¬ (((typeTotals cd).filter (fun r => decide (q2 < r.2))).length < 20) := by
    intro hcon2
    exact hqout ((bar_mem_iff cd q1).mpr ⟨q2, hq, hcon2⟩)
  by_contra hcon
  push_neg at hcon
  have hmono :
      ((typeTotals cd).filter (fun r => decide (q2 < r.2))).length ≤
        ((typeTotals cd).filter (fun r => decide (p2 < r.2))).length := by
    rw [← List.countP_eq_length_filter, ← List.countP_eq_length_filter]
    apply List.countP_mono_left
    intro r _ hr
    simp only [decide_eq_true_eq] at hr ⊢
    omega
  rw [hn, ← hp2] at hnlt
  omega

/-- With pairwise-distinct totals, the bar chart shows exactly
`min (number of types) 20` types. -/
theorem bar_count_distinct (cd : List ChartRow)
    (hnd : ((typeTotals cd).map (fun r => r.2)).Nodup) :
    (barTypes cd).length = min (typeTotals cd).length 20 := by
  unfold barTypes rankOf
  rw [List.length_map]
  have hpred : ∀ p : String × Nat,
      (decide (1 + ((typeTotals cd).filter (fun q => decide (p.2 < q.2))).length ≤ 20)) =
        (decide (((typeTotals cd).map (fun r => r.2)).countP
          (fun y => decide (p.2 < y)) < 20)) := by
    intro p
    rw [← List.countP_eq_length_filter, List.countP_map]
    show (decide (1 + (typeTotals cd).countP (fun q => decide (p.2 < q.2)) ≤ 20)) =
      (decide ((typeTotals cd).countP (fun q => decide (p.2 < q.2)) < 20))
    exact decide_eq_decide.mpr (by omega)
  rw [List.filter_congr (fun p _ => hpred p)]
  have hrank := filter_rank_length_nodup ((typeTotals cd).map (fun r => r.2)) hnd 20
  have houter : ((typeTotals cd).filter (fun p =>
        decide (((typeTotals cd).map (fun r => r.2)).countP
          (fun y => decide (p.2 < y)) < 20))).length =
      (((typeTotals cd).map (fun r => r.2)).filter (fun x =>
        decide (((typeTotals cd).map (fun r => r.2)).countP
          (fun y => decide (x < y)) < 20))).length := by
    rw [List.filter_map, List.length_map]
    rfl
  rw [houter, hrank, List.length_map]

/-- C1: an input whose upper-cased text contains at least one property
keyword and at least one violent keyword is categorized as
"Property Crime" — the keyword lists are tried in fixed priority order
(property, violent, public safety) and the first matching list wins. -/
theorem categorize_property_priority (s : String)
    (hp : property_keywords.any (fun k => strContainsSub (pyUpper s) k) = true)
    (hv : violent_keywords.any (fun k => strContainsSub (pyUpper s) k) = true) :
    categorize_for_resident (PyVal.str s) = "Property Crime" := by
  simp [categorize_for_resident, hp]

/-- Witness for C1: "VEHICULAR HOMICIDE - THEFT" contains the property
keyword "THEFT" and the violent keyword "HOMICIDE" and resolves to
"Property Crime" by list order. -/
theorem categorize_property_priority_witness :
    (property_keywords.any (fun k =>
      strContainsSub (pyUpper "VEHICULAR HOMICIDE - THEFT") k) = true) ∧
    (violent_keywords.any (fun k =>
      strContainsSub (pyUpper "VEHICULAR HOMICIDE - THEFT") k) = true) ∧
    categorize_for_resident (PyVal.str "VEHICULAR HOMICIDE - THEFT") = "Property Crime" :=
  ⟨by decide, by decide,
    categorize_property_priority "VEHICULAR HOMICIDE - THEFT" (by decide) (by decide)⟩

/-- C9: the Categorizer is a pure total function: a non-string input
yields "Other / Uncategorized", a string matching none of the three
keyword lists yields "Other / Uncategorized", and every result is one
of the four resident-facing buckets. -/
theorem categorize_total_function :
    (categorize_for_resident PyVal.nonString = "Other / Uncategorized") ∧
    (∀ s : String,
      property_keywords.any (fun k => strContainsSub (pyUpper s) k) = false →
      violent_keywords.any (fun k => strContainsSub (pyUpper s) k) = false →
      public_safety_keywords.any (fun k => strContainsSub (pyUpper s) k) = false →
      categorize_for_resident (PyVal.str s) = "Other / Uncategorized") ∧
    (∀ v : PyVal, categorize_for_resident v ∈ resident_buckets) := by
  refine ⟨rfl, ?_, ?_⟩
  · intro s h1 h2 h3
    simp [categorize_for_resident, h1, h2, h3]
  · intro v
    cases v with
    | nonString => simp [categorize_for_resident, resident_buckets]
    | str s =>
      simp only [categorize_for_resident, resident_buckets]
      split_ifs <;> simp

/-- Witness for C9: "RITUALISM" matches none of the three keyword
lists and is mapped to "Other / Uncategorized". -/
theorem categorize_total_function_witness :
    categorize_for_resident (PyVal.str "RITUALISM") = "Other / Uncategorized" :=
  categorize_total_function.2.1 "RITUALISM" (by decide) (by decide) (by decide)

/-- C3: on any transport or decoding failure (the `except` branch of
`load_data`), the loader returns an empty working set and reports the
failure to the caller; the embedding is a total function, so no
exception escapes. -/
theorem load_failure_returns_empty (e : String) :
    (load_data (Except.error e)).rows = [] ∧
    (load_data (Except.error e)).errorReported = some ("Failed to load data: " ++ e) :=
  ⟨rfl, rfl⟩

/-- C6: a row with unknown (null) domestic status is excluded from the
Domestic-only result and from the Non-domestic-only result, whatever
the date range and type selection; and the two non-All modes keep only
rows whose `is_domestic` exactly equals the requested boolean. -/
theorem domestic_filter_excludes_unknown (rows : List Incident)
    (start_date end_date : Nat) (selected : List String) (inc : Incident)
    (h : inc.is_domestic = none) :
    inc ∉ filterEngine rows start_date end_date DomesticMode.domesticOnly selected ∧
    inc ∉ filterEngine rows start_date end_date DomesticMode.nonDomesticOnly selected ∧
    (∀ j ∈ filterEngine rows start_date end_date DomesticMode.domesticOnly selected,
      j.is_domestic = some true) ∧
    (∀ j ∈ filterEngine rows start_date end_date DomesticMode.nonDomesticOnly selected,
      j.is_domestic = some false) := by
  have key : ∀ (mode : DomesticMode) (b : Bool) (j : Incident),
      (mode = DomesticMode.domesticOnly → b = true) →
      (mode = DomesticMode.nonDomesticOnly → b = false) →
      j ∈ filterEngine rows start_date end_date mode selected →
      domesticMask mode j = true := by
    intro mode b j _ _ hj
    have := List.of_mem_filter hj
    simp only [mask, Bool.and_eq_true] at this
    exact this.1.2
  refine ⟨?_, ?_, ?_, ?_⟩
  · intro hmem
    have := key DomesticMode.domesticOnly true inc (fun _ => rfl) (by simp) hmem
    simp [domesticMask, h] at this
  · intro hmem
    have := key DomesticMode.nonDomesticOnly false inc (by simp) (fun _ => rfl) hmem
    simp [domesticMask, h] at this
  · intro j hj
    have := key DomesticMode.domesticOnly true j (fun _ => rfl) (by simp) hj
    simpa [domesticMask] using this
  · intro j hj
    have := key DomesticMode.nonDomesticOnly false j (by simp) (fun _ => rfl) hj
    simpa [domesticMask] using this

/-- Witness for C6: the unknown-domestic incident is excluded from the
Domestic-only result even though it satisfies the date predicate. -/
theorem domestic_filter_excludes_unknown_witness :
    unknownDomesticInc ∉
      filterEngine [unknownDomesticInc] 0 10 DomesticMode.domesticOnly [] :=
  (domestic_filter_excludes_unknown [unknownDomesticInc] 0 10 [] unknownDomesticInc rfl).1

/-- C8: with an empty crime-type selection the Filter Engine returns
exactly the rows kept by the date-range and domestic predicates alone
— the type restriction is a no-op. -/
theorem empty_selection_is_noop (rows : List Incident)
    (start_date end_date : Nat) (mode : DomesticMode) :
    filterEngine rows start_date end_date mode [] =
      rows.filter (fun inc => dateMask start_date end_date inc && domesticMask mode inc) := by
  unfold filterEngine
  apply List.filter_congr
  intro inc _
  simp [mask, typeMask]

/-- C7: every row of the working set produced by a successful load has
a valid timestamp, and rows whose timestamp coerced to NaT are dropped
rather than kept as null rows: the working set has exactly one row per
raw record with a parseable date. -/
theorem load_rows_have_timestamp (raws : List RawRecord) :
    (∀ inc ∈ (load_data (Except.ok raws)).rows, inc.occurred_at.isSome = true) ∧
    (load_data (Except.ok raws)).rows.length =
      (raws.filter (fun r => r.date.isSome)).length := by
  constructor
  · intro inc hmem
    simp only [load_data, List.mem_filterMap] at hmem
    obtain ⟨r, _, hpr⟩ := hmem
    cases hd : r.date with
    | none => rw [processRow, hd] at hpr; cases hpr
    | some t =>
      rw [processRow, hd] at hpr
      cases hpr
      rfl
  · simp only [load_data]
    induction raws with
    | nil => rfl
    | cons r rs ih =>
      cases hd : r.date with
      | none =>
        have h1 : processRow r = none := by rw [processRow, hd]
        simp [List.filterMap_cons, List.filter_cons, h1, hd, ih]
      | some t =>
        have h1 : (processRow r).isSome = true := by rw [processRow, hd]; rfl
        obtain ⟨inc, hinc⟩ := Option.isSome_iff_exists.mp h1
        simp [List.filterMap_cons, List.filter_cons, hinc, hd, ih]

/-- Witness for C7: in a load of one parseable and one unparseable
record, the kept row has a valid timestamp (and the unparseable row
was dropped, leaving a single row). -/
theorem load_rows_have_timestamp_witness :
    timestampInc.occurred_at.isSome = true ∧
    (load_data (Except.ok [goodRaw, badRaw])).rows.length = 1 :=
  ⟨(load_rows_have_timestamp [goodRaw, badRaw]).1 timestampInc (by decide),
   ((load_rows_have_timestamp [goodRaw, badRaw]).2).trans (by decide)⟩

/-- C2: grouping the example rows by occurrence date, counting per
date and sorting ascending yields the count series
[4, 10, 4, 10, 4, 10, 4]; the trailing 7-row rolling mean has as its
7th value exactly (4+10+4+10+4+10+4)/7 and as its 1st value the 1st
raw count 4; and the rolling series always has one (defined) value per
row of the count series. -/
theorem daily_rolling_mean_spec :
    dailyCounts trendRows = [4, 10, 4, 10, 4, 10, 4] ∧
    (rollingMean7 (dailyCounts trendRows))[6]? =
      some ((4 + 10 + 4 + 10 + 4 + 10 + 4 : ℚ) / 7) ∧
    (rollingMean7 (dailyCounts trendRows))[0]? = some (4 : ℚ) ∧
    (∀ counts : List Nat, (rollingMean7 counts).length = counts.length) := by
  refine ⟨by decide, ?_, ?_, ?_⟩
  · have h7 : ((4 + 10 + 4 + 10 + 4 + 10 + 4 : ℚ) / 7) = mkRat 46 7 := by
      norm_num [Rat.mkRat_eq_divInt, Rat.divInt_eq_div]
    rw [h7]
    decide
  · have h1 : (4 : ℚ) = mkRat 4 1 := by
      norm_num [Rat.mkRat_eq_divInt, Rat.divInt_eq_div]
    rw [h1]
    decide
  · intro counts
    simp [rollingMean7]

/-- C4: a raw `community_area` of "25" and one of "25.0" are both
stored as the nullable integer 25 (not a float), both groups of the
drilldown carry the exact string join key "25", and that key finds the
boundary feature whose string-typed area property is "25". -/
theorem community_area_exact_join_key :
    ((load_data (Except.ok [rawArea25, rawArea25f])).rows.map
      (fun inc => inc.community_area)) = [some 25, some 25] ∧
    (chart_data (load_data (Except.ok [rawArea25, rawArea25f])).rows).map
      (fun r => r.community_area) = ["25", "25"] ∧
    (chart_data (load_data (Except.ok [rawArea25, rawArea25f])).rows).map
      (fun r => lookupFeature [boundary25] r.community_area) =
      [some boundary25, some boundary25] := by
  refine ⟨by decide, by decide, by decide⟩

/-- C10: the type-by-area aggregate groups by
(`primary_description`, `community_area`) with null keys dropped —
the aggregate is unchanged by removing every row with a null group
key — and consequently the bar chart's per-type total counts exactly
the filtered incidents of that type whose community area is known. -/
theorem chart_data_drops_null_keys (rows : List Incident) :
    chart_data rows = chart_data (rows.filter (fun inc => (incKey inc).isSome)) ∧
    (∀ t : String,
      typeTotal (chart_data rows) t =
        (rows.filter (fun inc =>
          decide (inc.primary_description = PyVal.str t) &&
          inc.community_area.isSome)).length) := by
  constructor
  · unfold chart_data keyPairs
    rw [filterMap_filter_isSome]
  · intro t
    have hpt : ∀ inc : Incident,
        (((incKey inc).map (fun k => decide (k.1 = t))).getD false) =
          (decide (inc.primary_description = PyVal.str t) &&
            inc.community_area.isSome) := by
      intro inc
      cases hpd : inc.primary_description with
      | nonString => simp [incKey, hpd]
      | str s =>
        cases hca : inc.community_area with
        | none => simp [incKey, hpd, hca]
        | some ca => simp [incKey, hpd, hca]
    have step1 :
        typeTotal (chart_data rows) t =
          (((keyPairs rows).dedup.filter (fun k => decide (k.1 = t))).map
            (fun k => @List.count _ instBEqOfDecidableEq k
              (keyPairs rows))).sum := by
      unfold typeTotal chart_data groupCounts
      rw [List.map_map, List.filter_map, List.map_map]
      exact (((sortB_perm keyLe (keyPairs rows).dedup).filter
        (fun k => decide (k.1 = t))).map
        (fun k => @List.count _ instBEqOfDecidableEq k
          (keyPairs rows))).sum_eq
    calc typeTotal (chart_data rows) t
        = (((keyPairs rows).dedup.filter (fun k => decide (k.1 = t))).map
            (fun k => @List.count _ instBEqOfDecidableEq k
              (keyPairs rows))).sum := step1
      _ = (keyPairs rows).countP (fun k => decide (k.1 = t)) :=
          List.sum_map_count_dedup_filter_eq_countP _ _
      _ = rows.countP (fun inc =>
            ((incKey inc).map (fun k => decide (k.1 = t))).getD false) := by
          unfold keyPairs
          exact countP_filterMap _ _ _
      _ = rows.countP (fun inc =>
            decide (inc.primary_description = PyVal.str t) &&
            inc.community_area.isSome) :=
          List.countP_congr (fun inc _ => by rw [hpt inc])
      _ = (rows.filter (fun inc =>
            decide (inc.primary_description = PyVal.str t) &&
            inc.community_area.isSome)).length :=
          List.countP_eq_length_filter _ _

/-- Counterexample to C5 as stated: with 21 crime types all tied at
one incident each, the descending-count rank window assigns every type
rank 1 (peers share a rank and there is no secondary sort key), the
`rank <= 20` filter keeps them all, and the bar chart shows 21 crime
types — not exactly the top 20. -/
theorem bar_chart_top20_counterexample :
    (typeTotals tieRows).length = 21 ∧ (barTypes tieRows).length = 21 :=
  ⟨by decide, by decide⟩

/-- C5 amended: the bar chart shows exactly the crime types whose
rank under descending total count is at most 20, where tied totals
share a rank and no secondary key is applied — equivalently, a type is
shown iff fewer than 20 types have a strictly greater total; every
shown type's total is at least every hidden type's total; and when all
per-type totals are distinct the chart shows exactly
`min (number of types) 20` types (ties straddling the cutoff can push
the number shown above 20). -/
theorem bar_chart_rank_cutoff (cd : List ChartRow) :
    (∀ t : String, t ∈ barTypes cd ↔
      ∃ n : Nat, (t, n) ∈ typeTotals cd ∧
        ((typeTotals cd).filter (fun p => decide (n < p.2))).length < 20) ∧
    (∀ p ∈ typeTotals cd, ∀ q ∈ typeTotals cd,
      p.1 ∈ barTypes cd → q.1 ∉ barTypes cd → q.2 ≤ p.2) ∧
    (((typeTotals cd).map (fun r => r.2)).Nodup →
      (barTypes cd).length = min (typeTotals cd).length 20) :=
  ⟨fun t => bar_mem_iff cd t,
   fun p hp q hq hpin hqout => bar_dominance cd p q hp hq hpin hqout,
   fun hnd => bar_count_distinct cd hnd⟩

/-- Witness for the amended C5: on two types with distinct totals 2
and 1, "THEFT" is shown and the chart shows exactly
`min 2 20 = 2` types. -/
theorem bar_chart_rank_cutoff_witness :
    "THEFT" ∈ barTypes distinctRows ∧ (barTypes distinctRows).length = 2 := by
  constructor
  · exact ((bar_chart_rank_cutoff distinctRows).1 "THEFT").mpr
      ⟨2, by decide, by decide⟩
  · exact ((bar_chart_rank_cutoff distinctRows).2.2 (by decide)).trans (by decide)
